import Mathlib

/-!
Verification of the PowerSwitcher cue/sequence execution engine
(`powerswitch.py`) against its natural-language specification.

The Python source is shallowly embedded: dictionaries become structures,
`xml.etree` elements become an `XmlElem` tree, Python `str`/`int`
conversions become an explicit decimal codec, the HTTP device is an
oracle `Nat → Resp` indexed by call number, and the side effects of the
executors (device POSTs and sleeps) are recorded as an event trace.
-/

/-- Model of a decimal digit character, as produced by Python `str` on an
integer.  Inputs are always `< 10` where this is used. -/
def digitChar : Nat → Char
  | 0 => '0'
  | 1 => '1'
  | 2 => '2'
  | 3 => '3'
  | 4 => '4'
  | 5 => '5'
  | 6 => '6'
  | 7 => '7'
  | 8 => '8'
  | 9 => '9'
  | _ => '?'

/-- Numeric value of a digit character (model of `ord(c) - ord('0')`). -/
def digitVal (c : Char) : Nat := c.toNat - 48

/-- Big-endian digit list of a positive natural number; `fuel` bounds the
recursion and any `fuel ≥ n` is enough.  Produces `[]` on `n = 0`. -/
def natDecimalAux : Nat → Nat → List Char
  | 0, _ => []
  | _, 0 => []
  | fuel + 1, n + 1 =>
    natDecimalAux fuel ((n + 1) / 10) ++ [digitChar ((n + 1) % 10)]

/-- Decimal digit string of a natural number, big-endian (model of Python
`str` on a non-negative `int`). -/
def natDecimal (n : Nat) : List Char :=
  if n = 0 then ['0'] else natDecimalAux n n

/-- Model of Python `str` on an arbitrary `int`. -/
def pyStr : Int → String
  | .ofNat n => String.mk (natDecimal n)
  | .negSucc n => String.mk ('-' :: natDecimal (n + 1))

/-- Model of Python `str` on a non-negative `int` (status codes). -/
def pyStrNat (n : Nat) : String := String.mk (natDecimal n)

/-- Value of a little-endian digit list (Horner evaluation). -/
def decodeDigitsRev : List Nat → Nat
  | [] => 0
  | d :: ds => d + 10 * decodeDigitsRev ds

/-- Parse a big-endian list of digit characters into a natural number;
`none` when empty or any character is not a digit. -/
def parseNatDigits (l : List Char) : Option Nat :=
  if l ≠ [] ∧ l.all Char.isDigit then
    some (decodeDigitsRev ((l.map digitVal).reverse))
  else none

/-- Model of Python `int(s)` on a string: optional leading minus sign then
decimal digits, `none` where Python raises `ValueError`.  (Python also
tolerates surrounding whitespace and a `+` sign; the call sites in this
repository never pass those.) -/
def parsePyInt (s : String) : Option Int :=
  match s.data with
  | [] => none
  | c :: rest =>
    if c = '-' then (parseNatDigits rest).map (fun n => -(n : Int))
    else (parseNatDigits (c :: rest)).map (fun n => (n : Int))

theorem digitVal_digitChar {d : Nat} (h : d < 10) : digitVal (digitChar d) = d := by
  interval_cases d <;> decide

theorem isDigit_digitChar {d : Nat} (h : d < 10) : (digitChar d).isDigit = true := by
  interval_cases d <;> decide

theorem natDecimalAux_zero (fuel : Nat) : natDecimalAux fuel 0 = [] := by
  cases fuel <;> rfl

theorem natDecimal_of_ne_zero {n : Nat} (h : n ≠ 0) :
    natDecimal n = natDecimalAux n n := by
  simp [natDecimal, h]

theorem natDecimalAux_spec :
    ∀ fuel n, 0 < n → n ≤ fuel →
      natDecimalAux fuel n ≠ [] ∧
      (natDecimalAux fuel n).all Char.isDigit = true ∧
      decodeDigitsRev (((natDecimalAux fuel n).map digitVal).reverse) = n := by
  intro fuel
  induction fuel with
  | zero => intro n hn hle; omega
  | succ fuel ih =>
    intro n hn hle
    obtain ⟨m, rfl⟩ : ∃ m, n = m + 1 := ⟨n - 1, by omega⟩
    have hmod : (m + 1) % 10 < 10 := Nat.mod_lt _ (by norm_num)
    by_cases hdiv : (m + 1) / 10 = 0
    · have hbase : natDecimalAux (fuel + 1) (m + 1) = [digitChar ((m + 1) % 10)] := by
        show natDecimalAux fuel ((m + 1) / 10) ++ [digitChar ((m + 1) % 10)] =
          [digitChar ((m + 1) % 10)]
        rw [hdiv, natDecimalAux_zero]
        rfl
      refine ⟨by simp [hbase], by simp [hbase, isDigit_digitChar hmod], ?_⟩
      have hsmall : m + 1 < 10 := by omega
      simp [hbase, decodeDigitsRev, digitVal_digitChar hmod]
      omega
    · have hlt : (m + 1) / 10 ≤ fuel := by
        have := Nat.div_lt_self (show 0 < m + 1 by omega) (show 1 < 10 by norm_num)
        omega
      obtain ⟨hne, hdig, hval⟩ := ih ((m + 1) / 10) (Nat.pos_of_ne_zero hdiv) hlt
      have hstep : natDecimalAux (fuel + 1) (m + 1) =
          natDecimalAux fuel ((m + 1) / 10) ++ [digitChar ((m + 1) % 10)] := rfl
      refine ⟨by simp [hstep], ?_, ?_⟩
      · simp only [hstep, List.all_append, hdig, Bool.true_and, List.all_cons,
          List.all_nil, Bool.and_true]
        exact isDigit_digitChar hmod
      · simp only [hstep, List.map_append, List.reverse_append, List.map_cons,
          List.map_nil, List.reverse_cons, List.reverse_nil, List.nil_append,
          List.cons_append, List.singleton_append]
        simp [decodeDigitsRev, hval, digitVal_digitChar hmod]
        omega

theorem parseNatDigits_natDecimal (n : Nat) :
    parseNatDigits (natDecimal n) = some n := by
  by_cases h : n = 0
  · subst h; decide
  · obtain ⟨hne, hdig, hval⟩ := natDecimalAux_spec n n (Nat.pos_of_ne_zero h) le_rfl
    rw [natDecimal_of_ne_zero h]
    simp [parseNatDigits, hne, hdig, hval]

theorem natDecimal_ne_nil (n : Nat) : natDecimal n ≠ [] := by
  by_cases h : n = 0
  · subst h; decide
  · rw [natDecimal_of_ne_zero h]
    exact (natDecimalAux_spec n n (Nat.pos_of_ne_zero h) le_rfl).1

theorem natDecimal_all_digits (n : Nat) : (natDecimal n).all Char.isDigit = true := by
  by_cases h : n = 0
  · subst h; decide
  · rw [natDecimal_of_ne_zero h]
    exact (natDecimalAux_spec n n (Nat.pos_of_ne_zero h) le_rfl).2.1

/-- Round trip: parsing the decimal rendering of an integer recovers it
(model-level counterpart of `int(str(i)) == i` in Python). -/
theorem parsePyInt_pyStr (i : Int) : parsePyInt (pyStr i) = some i := by
  cases i with
  | ofNat n =>
    have hd := natDecimal_all_digits n
    have hne := natDecimal_ne_nil n
    obtain ⟨c, rest, hcr⟩ : ∃ c rest, natDecimal n = c :: rest := by
      cases hl : natDecimal n with
      | nil => exact absurd hl hne
      | cons c rest => exact ⟨c, rest, rfl⟩
    have hcd : c.isDigit = true := by
      have := hd
      rw [hcr] at this
      simp [List.all_cons] at this
      exact this.1
    have hcne : ¬ c = '-' := by
      intro hc; rw [hc] at hcd; exact absurd hcd (by decide)
    have : parseNatDigits (c :: rest) = some n := by
      rw [← hcr]; exact parseNatDigits_natDecimal n
    simp [pyStr, parsePyInt, hcr, hcne, this]
  | negSucc n =>
    have : parseNatDigits (natDecimal (n + 1)) = some (n + 1) :=
      parseNatDigits_natDecimal (n + 1)
    simp [pyStr, parsePyInt, this, Int.negSucc_eq]

theorem pyStr_ne_empty (i : Int) : pyStr i ≠ "" := by
  cases i with
  | ofNat n =>
    have := natDecimal_ne_nil n
    simp [pyStr]
    intro h
    exact this (by simpa using congrArg String.data h)
  | negSucc n =>
    simp [pyStr]
    intro h
    have := congrArg String.data h
    simp at this

/-! ## Python string helpers -/

/-- Model of Python `str.strip()`: remove leading and trailing whitespace. -/
def pyStrip (s : String) : String :=
  String.mk (((s.data.dropWhile Char.isWhitespace).reverse.dropWhile
    Char.isWhitespace).reverse)

/-- Model of Python `str.lower()` (ASCII letters, which is all this
repository ever lowercases). -/
def pyLower (s : String) : String := String.mk (s.data.map Char.toLower)

/-- Model of Python `a or b` on optional strings: an absent value and the
empty string are both falsy. -/
def pyOr (a b : Option String) : Option String :=
  match a with
  | some s => if s = "" then b else some s
  | none => b

/-- Membership of `s.strip().lower()` in the accepted boolean spellings
`{"1", "true", "t", "yes", "y", "on"}` (source `_gather_steps` /
`_read_sequence_xml` / `_parse_bool`). -/
def pyTruthy (s : String) : Bool :=
  ["1", "true", "t", "yes", "y", "on"].contains (pyLower (pyStrip s))

/-- Model of Python slicing `s[:n]` on a string (by characters). -/
def strTake (s : String) (n : Nat) : String := String.mk (s.data.take n)

/-- Model of `s.lower().endswith(".xml")` (source `_post_cue_sync`). -/
def endsWithDotXml (s : String) : Bool :=
  (pyLower s).data.reverse.take 4 = ['l', 'm', 'x', '.']

/-! ## XML element model (`xml.etree.ElementTree` elements) -/

/-- An already-parsed XML element: tag, attribute list, child elements and
optional text.  Malformed-XML failures of `ET.parse` itself are below this
model; every claim here concerns documents that parse. -/
inductive XmlElem where
  | mk (tag : String) (attrs : List (String × String))
       (children : List XmlElem) (text : Option String)

def XmlElem.tag : XmlElem → String
  | .mk t _ _ _ => t

def XmlElem.attrs : XmlElem → List (String × String)
  | .mk _ a _ _ => a

def XmlElem.children : XmlElem → List XmlElem
  | .mk _ _ c _ => c

def XmlElem.text : XmlElem → Option String
  | .mk _ _ _ t => t

/-- Model of `element.get(name)`: first attribute with the given name. -/
def attrGet (name : String) : List (String × String) → Option String
  | [] => none
  | (k, v) :: rest => if name = k then some v else attrGet name rest

/-- Model of `element.findall(tag)`: direct children with the given tag. -/
def findall (tag : String) (el : XmlElem) : List XmlElem :=
  el.children.filter (fun c => c.tag = tag)

/-! ## Sequence Store (`_read_sequence_xml` / `_write_sequence_xml`) -/

/-- One relay action of a stored sequence. -/
structure Step where
  switch : Int
  position : Bool
  delay : Int
deriving DecidableEq

/-- Parse one `<Step>` element exactly as `_read_sequence_xml` does:
attribute fallback chains use Python `or` (so empty strings fall
through), a missing or unparsable `switch`/`delay` defaults to `0`, and
`position` is truthy-spelling membership (an absent value is Python
`str(None) = "None"`, which is not an accepted spelling). -/
def parseStepEl (el : XmlElem) : Step :=
  let swRaw := pyOr (attrGet "switch" el.attrs)
    (pyOr (attrGet "Switch" el.attrs) (attrGet "channel" el.attrs))
  let sw := (swRaw.bind parsePyInt).getD 0
  let posRaw := pyOr (attrGet "position" el.attrs)
    (pyOr (attrGet "Position" el.attrs) (attrGet "state" el.attrs))
  let pos := pyTruthy (posRaw.getD "None")
  let delayRaw := pyOr (attrGet "delay" el.attrs)
    (pyOr (attrGet "Delay" el.attrs) el.text)
  let delay := (delayRaw.bind parsePyInt).getD 0
  { switch := sw, position := pos, delay := delay }

/-- Model of `_read_sequence_xml` on a parsed document: the source checks
`root.tag != "Sequence"` and then does nothing with the result (`pass`),
so every `<Step>` child is read regardless of the root tag. -/
def read_sequence_xml (root : XmlElem) : List Step :=
  (findall "Step" root).map parseStepEl

/-- Serialize one step as `_write_sequence_xml` does: explicit `switch`,
`position` (`"true"`/`"false"`) and `delay` attributes. -/
def stepToEl (s : Step) : XmlElem :=
  .mk "Step"
    [("switch", pyStr s.switch),
     ("position", if s.position then "true" else "false"),
     ("delay", pyStr s.delay)]
    [] none

/-- Model of `_write_sequence_xml`: a `<Sequence>` root holding one
`<Step>` element per step. -/
def write_sequence_xml (steps : List Step) : XmlElem :=
  .mk "Sequence" [] (steps.map stepToEl) none

/-! ## Cue model and Switch-State Codec (`_build_pairs_from_cue`) -/

/-- The fields of a cue row dictionary that the engine paths read:
`Switch1..Switch8` (a lookup by switch number, `none` when the key is
absent) and the `Sequence` reference (`none` when the key is absent). -/
structure PyCue where
  switches : Nat → Option Bool
  sequence : Option String

/-- The DLI REST endpoint uses 0-based channels (source constant). -/
def OUTLET_BASE : Int := 0

/-- Model of `_build_pairs_from_cue`: one `[channel, state]` pair per
`Switch1..Switch8`, channel `OUTLET_BASE + (i - 1)`, missing switches
read as `False`. -/
def build_pairs_from_cue (cue : PyCue) : List (Int × Bool) :=
  (List.range 8).map fun k =>
    let i : Nat := k + 1
    (OUTLET_BASE + ((i : Int) - 1), (cue.switches i).getD false)

/-! ## Device and event-trace model -/

/-- An HTTP response from the relay device: status code and body text. -/
structure Resp where
  status : Nat
  body : String
deriving DecidableEq

/-- Observable side effects of the executors: a device POST whose JSON
body is `[group]` for the recorded group of `[channel, state]` pairs, or
a `time.sleep` of the given milliseconds. -/
inductive Ev where
  | call (group : List (Int × Bool))
  | sleep (ms : Int)
deriving DecidableEq

/-- Result of running a cue batch: the events that actually happened (in
order), the next device-response index, and the first error if one was
raised.  Events before the error are kept: a POST that receives a 4xx/5xx
answer did reach the device before the error propagated. -/
structure RunRes where
  events : List Ev
  next : Nat
  err : Option String
deriving DecidableEq

/-- Python `requests` `raise_for_status` raises exactly for 4xx/5xx. -/
def raisesForStatus (s : Nat) : Bool := decide (400 ≤ s ∧ s < 600)

/-- Per-cue switch gathering of `execute_sequence` /
`execute_sequence_from_file`: children whose tag is `Switch` followed by
digits contribute `[switchNumber - 1, text == "true"]`; any such child
whose text is not `true`/`false` (case-insensitive, stripped) raises. -/
def gatherSwitchPairs : List XmlElem → Except String (List (Int × Bool))
  | [] => .ok []
  | ch :: rest =>
    let tdata := ch.tag.data
    if tdata.take 6 = ['S', 'w', 'i', 't', 'c', 'h'] then
      let num := tdata.drop 6
      if num ≠ [] ∧ num.all Char.isDigit then
        let switch1based : Int := decodeDigitsRev ((num.map digitVal).reverse)
        let t := pyLower (pyStrip (ch.text.getD ""))
        if t = "true" ∨ t = "false" then
          (gatherSwitchPairs rest).map ((switch1based - 1, t = "true") :: ·)
        else .error ("Invalid value for Switch element (must be true/false)")
      else gatherSwitchPairs rest
    else gatherSwitchPairs rest

/-- The order-collection loop of both executors: for each `<Cue>`, a
missing `order` attribute or one that is not an integer raises; otherwise
the cue is kept keyed by its order. -/
def collectCues : List XmlElem → Except String (List (Int × XmlElem))
  | [] => .ok []
  | c :: rest =>
    match attrGet "order" c.attrs with
    | none => .error "Cue missing required order attribute"
    | some raw =>
      match parsePyInt raw with
      | none => .error ("Invalid Cue order=" ++ raw ++ " (must be integer)")
      | some o => (collectCues rest).map ((o, c) :: ·)

/-- Stable insertion of a keyed cue: placed before the first strictly or
equally later key it is ≤, matching the stability of Python `list.sort`. -/
def orderedInsertCue (a : Int × XmlElem) : List (Int × XmlElem) → List (Int × XmlElem)
  | [] => [a]
  | b :: bs => if a.1 ≤ b.1 then a :: b :: bs else b :: orderedInsertCue a bs

/-- Model of `cues.sort(key=lambda t: t[0])`: a stable sort ascending by
order key (any two stable sorts agree, so insertion sort is a faithful
model of Python Timsort here). -/
def sortCuesByOrder : List (Int × XmlElem) → List (Int × XmlElem)
  | [] => []
  | a :: l => orderedInsertCue a (sortCuesByOrder l)

/-- Parse of the optional per-cue `delay` attribute, after the POST
succeeded: absent or blank means 0, a non-integer raises. -/
def parseCueDelay (cue : XmlElem) : Except String Int :=
  match attrGet "delay" cue.attrs with
  | none => .ok 0
  | some raw =>
    let raw := pyStrip raw
    if raw = "" then .ok 0
    else
      match parsePyInt raw with
      | none => .error ("Invalid Cue delay=" ++ raw ++ " (must be integer milliseconds)")
      | some d => .ok d

/-- Execute one `<Cue>` element: gather its switch pairs (raising when a
value is malformed or no pairs result), POST the single group payload,
raise on a 4xx/5xx answer, then sleep the cue delay when positive. -/
def runCue (cue : XmlElem) (resps : Nat → Resp) (k : Nat) : RunRes :=
  match gatherSwitchPairs cue.children with
  | .error e => { events := [], next := k, err := some e }
  | .ok steps =>
    if steps = [] then
      { events := [], next := k,
        err := some "Cue produced no Switch settings (no SwitchN elements found)" }
    else
      let r := resps k
      if raisesForStatus r.status then
        { events := [.call steps], next := k + 1,
          err := some ("HTTP error " ++ pyStrNat r.status ++ " for url") }
      else
        match parseCueDelay cue with
        | .error e => { events := [.call steps], next := k + 1, err := some e }
        | .ok d =>
          { events := [.call steps] ++ (if 0 < d then [.sleep d] else []),
            next := k + 1, err := none }

/-- Execute the sorted cues in order, stopping at the first error. -/
def runCues : List (Int × XmlElem) → (Nat → Resp) → Nat → RunRes
  | [], _, k => { events := [], next := k, err := none }
  | (_, c) :: rest, resps, k =>
    let r := runCue c resps k
    match r.err with
    | some e => { events := r.events, next := r.next, err := some e }
    | none =>
      let r2 := runCues rest resps r.next
      { events := r.events ++ r2.events, next := r2.next, err := r2.err }

/-- Model of `execute_sequence`, the batch entry point: collect the
root's `<Cue>` children, sort them by `order`, and execute them in that
order.  Python's `execute_sequence` performs no root-tag check — it goes
straight to `root.findall("Cue")`. -/
def execute_sequence (root : XmlElem) (resps : Nat → Resp) (k : Nat) : RunRes :=
  match collectCues (findall "Cue" root) with
  | .error e => { events := [], next := k, err := some e }
  | .ok cues => runCues (sortCuesByOrder cues) resps k

/-- Model of `execute_sequence_from_file` applied to the already-parsed
file root: unlike the batch entry point, it first requires root `<Cues>`,
and its collect/sort/execute loop is line-for-line the same code as
`execute_sequence`, embedded here by delegation. -/
def execute_sequence_from_file (root : XmlElem) (resps : Nat → Resp) (k : Nat) : RunRes :=
  if root.tag = "Cues" then execute_sequence root resps k
  else
    { events := [], next := k,
      err := some ("Expected root <Cues>, got <" ++ root.tag ++ ">") }

/-! ## Single-cue send (`_post_cue_sync`) -/

/-- The status message of a completed single-cue POST:
`f"{resp.status_code} — {resp.text[:120]}"`.  Built for every completed
exchange, whatever the status class; the body is used verbatim. -/
def statusMsg (r : Resp) : String :=
  pyStrNat r.status ++ " — " ++ strTake r.body 120

/-- Model of `_post_cue_sync`: build the 8-pair payload from the cue; if
the (stripped) `Sequence` field is non-empty, resolve
`sequences/<name>.xml` through the file store (`files`) and run it with
`execute_sequence_from_file` — raising `FileNotFoundError` when absent
and propagating any executor error — and then, in every non-raising path,
still POST the cue's own 8-pair payload and return the status message of
that final exchange. -/
def post_cue_sync (cue : PyCue) (files : String → Option XmlElem)
    (resps : Nat → Resp) (k : Nat) : Except String (List Ev × String × Nat) :=
  let payload := build_pairs_from_cue cue
  let sequence := pyStrip (cue.sequence.getD "")
  let pre : Except String (List Ev × Nat) :=
    if sequence = "" then .ok ([], k)
    else
      let fname := if endsWithDotXml sequence then sequence else sequence ++ ".xml"
      match files fname with
      | none => .error ("Sequence file not found: " ++ fname)
      | some root =>
        let res := execute_sequence_from_file root resps k
        match res.err with
        | some e => .error e
        | none => .ok (res.events, res.next)
  match pre with
  | .error e => .error e
  | .ok (evs, k2) =>
    let r := resps k2
    .ok (evs ++ [.call payload], statusMsg r, k2 + 1)

/-! ## Dispatch Coordinator (`_debounced_send_for_iid`,
`_begin_send_selected`, `_finish_send`) -/

/-- The coordinator state owned by the interactive thread: the generation
counter `_send_seq`, the busy cursor flag, the displayed `dli_status`
line, the `_is_closing` shutdown flag, the single pending debounce handle
`_pending_send_id` (modelled by the row id it would send), and a ghost
history of the row ids actually handed to a worker. -/
structure AppState where
  sendSeq : Nat
  busy : Bool
  status : String
  closing : Bool
  pendingIid : Option String
  dispatched : List String
deriving DecidableEq

/-- Model of `_debounced_send_for_iid`: cancel whatever debounce was
pending and schedule a fresh one for `iid` (`_safe_after` schedules
nothing once the app is closing, leaving the handle `None`). -/
def debounced_send_for_iid (st : AppState) (iid : String) : AppState :=
  { st with pendingIid := if st.closing then none else some iid }

/-- Model of `_begin_send_selected` for a row that exists: clear the
pending handle, increment the generation counter, set the busy cursor,
record the dispatch, and return the generation `my_seq` that will tag the
result.  When the app is closing nothing happens. -/
def begin_send_selected (st : AppState) (iid : String) : AppState × Option Nat :=
  if st.closing then (st, none)
  else
    ({ st with
        busy := true
        pendingIid := none
        sendSeq := st.sendSeq + 1
        dispatched := st.dispatched ++ [iid] },
      some (st.sendSeq + 1))

/-- Firing of the pending debounce timer: runs `_begin_send_selected` for
the scheduled row id, if any debounce is still pending. -/
def fireDebounce (st : AppState) : AppState :=
  match st.pendingIid with
  | none => st
  | some iid => (begin_send_selected st iid).1

/-- The status line `_finish_send` writes on a non-stale result. -/
def statusLine (ok : Bool) (msg name : String) : String :=
  (if ok then "DLI (HTTP): " else "DLI (HTTP) error: ") ++ msg ++ " — " ++ name

/-- Model of `_finish_send`: a result tagged `seq` is dropped when the app
is closing or when `seq` differs from the current generation counter;
otherwise the status line is updated and the busy cursor cleared. -/
def finish_send (st : AppState) (seq : Nat) (ok : Bool) (msg name : String) : AppState :=
  if st.closing then st
  else if seq ≠ st.sendSeq then st
  else { st with status := statusLine ok msg name, busy := false }

/-- A worker completion event posted back to the interactive thread. -/
structure FinishEvt where
  seq : Nat
  ok : Bool
  msg : String
  name : String
deriving DecidableEq

/-- Apply a list of completion events in arrival order. -/
def applyFinishes (st : AppState) : List FinishEvt → AppState
  | [] => st
  | e :: rest => applyFinishes (finish_send st e.seq e.ok e.msg e.name) rest

/-! ## Concrete inputs used by the claim instances -/

/-- The stored sequence file the scenario names `warmup`, exactly as the
Sequence Store itself writes it: root `<Sequence>` with two steps. -/
def seqFileWarmup : XmlElem :=
  write_sequence_xml [⟨2, true, 500⟩, ⟨2, false, 0⟩]

/-- A sequences directory holding only `warmup.xml`. -/
def filesWarmup : String → Option XmlElem := fun n =>
  if n = "warmup.xml" then some seqFileWarmup else none

/-- A cue whose `Sequence` field references `warmup`; `Switch1` on. -/
def cueWarmup : PyCue :=
  { switches := fun i => if i = 1 then some true else none
    sequence := some "warmup" }

/-- A stored file `boot.xml` that happens to be in the cue-batch format
the executor expects: root `<Cues>` with one valid cue. -/
def bootFile : XmlElem :=
  .mk "Cues" []
    [.mk "Cue" [("order", "1")] [.mk "Switch1" [] [] (some "true")] none] none

/-- A sequences directory holding only `boot.xml`. -/
def filesBoot : String → Option XmlElem := fun n =>
  if n = "boot.xml" then some bootFile else none

/-- A cue whose `Sequence` field references `boot`; `Switch1` on. -/
def cueBoot : PyCue :=
  { switches := fun i => if i = 1 then some true else none
    sequence := some "boot" }

/-- A cue with no sequence reference and no switch keys set. -/
def cuePlain : PyCue := { switches := fun _ => none, sequence := none }

/-- An empty sequences directory. -/
def filesNone : String → Option XmlElem := fun _ => none

/-- A device that always answers 200. -/
def respsOK : Nat → Resp := fun _ => { status := 200, body := "OK" }

/-- A device that always answers 404. -/
def resps404 : Nat → Resp := fun _ => { status := 404, body := "not found here" }

/-- A device that answers 200 except for the second call (index 1),
which gets 500. -/
def respsFail2 : Nat → Resp := fun k =>
  if k = 1 then { status := 500, body := "boom" } else { status := 200, body := "OK" }

/-- The 8-pair group with exactly switch `j + 1` on. -/
def vec8 (j : Nat) : List (Int × Bool) :=
  (List.range 8).map fun k => ((k : Int), decide (k = j))

/-- The eight `<SwitchN>` children of a batch cue element, switch `j + 1`
on and the rest off. -/
def swEls (j : Nat) : List XmlElem :=
  (List.range 8).map fun k =>
    .mk ("Switch" ++ pyStrNat (k + 1)) [] [] (some (if k = j then "true" else "false"))

/-- A `<Cue>` batch element with the given name, order and sequence
attributes and switch `j + 1` on. -/
def cueEl (name order seqRef : String) (j : Nat) : XmlElem :=
  .mk "Cue" [("name", name), ("order", order), ("sequence", seqRef), ("delay", "")]
    (swEls j) none

/-- A batch of three cues appearing in document order A, B, C with order
attributes 3, 1, 2. -/
def doc312 : XmlElem :=
  .mk "Cues" [] [cueEl "A" "3" "" 0, cueEl "B" "1" "" 1, cueEl "C" "2" "" 2] none

/-- A batch cue element with no `order` attribute. -/
def cueNoOrderEl : XmlElem := .mk "Cue" [("name", "A")] (swEls 0) none

/-- A batch whose single cue has no `order` attribute. -/
def docMissingOrder : XmlElem := .mk "Cues" [] [cueNoOrderEl] none

/-- A batch cue element whose `order` attribute is not an integer. -/
def cueBadOrderEl : XmlElem := .mk "Cue" [("name", "A"), ("order", "x")] (swEls 0) none

/-- A batch whose single cue has the non-integer order attribute `x`. -/
def docNonIntOrder : XmlElem := .mk "Cues" [] [cueBadOrderEl] none

/-- Two collected, ascending cues (orders 1 and 2). -/
def c4l1 : List (Int × XmlElem) := [(1, cueEl "B" "1" "" 1), (2, cueEl "C" "2" "" 2)]

/-- One further collected cue (order 3). -/
def c4l2 : List (Int × XmlElem) := [(3, cueEl "A" "3" "" 0)]

/-- The collected-but-unsorted cue list of `doc312`: orders 3, 1, 2. -/
def c4lUnsorted : List (Int × XmlElem) :=
  [(3, cueEl "A" "3" "" 0), (1, cueEl "B" "1" "" 1), (2, cueEl "C" "2" "" 2)]

/-- The sort key comparison of the batch executor: ascending `order`. -/
def orderKeyLe (a b : Int × XmlElem) : Prop := a.1 ≤ b.1

/-- A batch whose single cue carries the non-empty sequence attribute
`warmup` as well as its own switch children. -/
def docSeqRef : XmlElem := .mk "Cues" [] [cueEl "S" "1" "warmup" 0] none

/-- A coordinator state in the middle of a run: generation 2, busy. -/
def stW : AppState :=
  { sendSeq := 2, busy := true, status := "", closing := false
    pendingIid := none, dispatched := [] }

/-- A fresh coordinator state: generation 0, idle. -/
def stW0 : AppState :=
  { sendSeq := 0, busy := false, status := "", closing := false
    pendingIid := none, dispatched := [] }

/-! ## Claim theorems -/

/-- C7: for every cue (missing switch keys read as false), the codec
returns exactly the eight pairs `[(0, s1), (1, s2), ..., (7, s8)]` in
switch-number order — channel index = switch number − 1.  The function is
total, so it cannot fail. -/
theorem c7_codec_exact_pairs (cue : PyCue) :
    build_pairs_from_cue cue =
      [(0, (cue.switches 1).getD false), (1, (cue.switches 2).getD false),
       (2, (cue.switches 3).getD false), (3, (cue.switches 4).getD false),
       (4, (cue.switches 5).getD false), (5, (cue.switches 6).getD false),
       (6, (cue.switches 7).getD false), (7, (cue.switches 8).getD false)] := rfl

/-- Parsing a written step element recovers the step exactly. -/
theorem parseStepEl_stepToEl (s : Step) : parseStepEl (stepToEl s) = s := by
  cases s with
  | mk sw pos d =>
    cases pos <;>
      simp [parseStepEl, stepToEl, attrGet, pyOr, pyStr_ne_empty, parsePyInt_pyStr,
        XmlElem.attrs, XmlElem.text] <;> decide

/-- The written document's `<Step>` children are exactly the written
steps. -/
theorem findall_write_sequence (l : List Step) :
    findall "Step" (write_sequence_xml l) = l.map stepToEl := by
  induction l with
  | nil => rfl
  | cons s t ih => exact congrArg (stepToEl s :: ·) ih

/-- C8: saving any well-formed step list through the Sequence Store and
loading it back under the same name returns a step list equal to the
original (`_write_sequence_xml` then `_read_sequence_xml`). -/
theorem c8_sequence_roundtrip (steps : List Step) :
    read_sequence_xml (write_sequence_xml steps) = steps := by
  unfold read_sequence_xml
  rw [findall_write_sequence, List.map_map]
  have : ∀ s ∈ steps, (parseStepEl ∘ stepToEl) s = id s := by
    intro s _
    simpa using parseStepEl_stepToEl s
  rw [List.map_congr_left this, List.map_id]

/-- C9 counterexample: a persisted document whose declared root kind is
`Playlist` — not a sequence document — is not rejected: the load
operation happily returns its `<Step>` children as a step list.  (The
source root-kind check is `if root.tag != "Sequence": pass`, a no-op, and
`_read_sequence_xml` has no error outcome apart from malformed XML.) -/
theorem c9_foreign_root_returns_steps :
    read_sequence_xml
      (.mk "Playlist" []
        [.mk "Step" [("switch", "2"), ("position", "true"), ("delay", "5")] [] none]
        none) =
      [{ switch := 2, position := true, delay := 5 }] := rfl

/-- C9 amended: the Sequence Store load operation ignores the declared
root kind entirely — replacing the root tag by any other string never
changes the loaded step list, so a foreign-kind document is read, not
rejected. -/
theorem c9_root_kind_ignored (t t2 : String) (attrs : List (String × String))
    (children : List XmlElem) (text : Option String) :
    read_sequence_xml (.mk t attrs children text) =
      read_sequence_xml (.mk t2 attrs children text) := rfl

/-- C1: evaluation of the single-cue path at the failing input.  The cue
references the resolvable stored file `boot.xml`; after executing the
file's steps, `_post_cue_sync` still falls through to "Proceed with the
states for this row" and issues a second device call carrying the cue's
own 8-pair payload — the trace ends with
`call [(0, s1), ..., (7, s8)]`, contradicting the claim (and the
source's own comment "execute the sequence file instead of the single
payload") that no such call is issued on this path. -/
theorem c1_sequence_path_also_posts_cue_payload :
    post_cue_sync cueBoot filesBoot respsOK 0 =
      .ok ([.call [(0, true)],
            .call [(0, true), (1, false), (2, false), (3, false),
                   (4, false), (5, false), (6, false), (7, false)]],
        "200 — OK", 2) := rfl

/-- C2: evaluation at the failing input.  The cue references the stored
sequence `warmup` — the exact file the Sequence Store writes for steps
`[{switch 2, true, 500 ms}, {switch 2, false, 0 ms}]`, whose root is
`<Sequence>` — but the executor the single-cue path delegates to
(`execute_sequence_from_file`) demands root `<Cues>`, so the whole send
raises and zero device calls are issued, instead of the two single-pair
calls with a 500 ms pause that the claim describes. -/
theorem c2_stored_sequence_rejected_by_executor :
    post_cue_sync cueWarmup filesWarmup respsOK 0 =
      .error "Expected root <Cues>, got <Sequence>" := rfl

/-- C3 counterexample: a send whose response has status 404 — not 2xx —
is not classified as a failure: `_post_cue_sync` returns the ordinary
success message built from the status code and body snippet, refuting
"only a 2xx response yields a success result". -/
theorem c3_non2xx_success_counterexample :
    post_cue_sync cuePlain filesNone resps404 0 =
      .ok ([.call [(0, false), (1, false), (2, false), (3, false),
                   (4, false), (5, false), (6, false), (7, false)]],
        "404 — not found here", 1) := rfl

/-- C3 amended: in the single-cue direct send (empty sequence reference),
every completed HTTP exchange — whatever its status code — yields the
success result `"{statusCode} — {body[:120]}"`, with the body snippet at
most 120 characters; the body is used verbatim, never parsed. -/
theorem c3_single_cue_any_status_success (cue : PyCue)
    (files : String → Option XmlElem) (resps : Nat → Resp) (k : Nat)
    (h : pyStrip (cue.sequence.getD "") = "") :
    post_cue_sync cue files resps k =
      .ok ([.call (build_pairs_from_cue cue)],
        pyStrNat (resps k).status ++ " — " ++ strTake (resps k).body 120, k + 1)
    ∧ (strTake (resps k).body 120).length ≤ 120 := by
  constructor
  · simp [post_cue_sync, h, statusMsg]
  · show (String.mk ((resps k).body.data.take 120)).length ≤ 120
    have : (String.mk ((resps k).body.data.take 120)).length =
        ((resps k).body.data.take 120).length := rfl
    rw [this, List.length_take]
    omega

/-- Witness for the amended C3 at a concrete 404 exchange. -/
theorem c3_single_cue_any_status_success_witness :
    pyStrip (cuePlain.sequence.getD "") = "" ∧
    (post_cue_sync cuePlain filesNone resps404 0 =
        .ok ([.call (build_pairs_from_cue cuePlain)],
          pyStrNat (resps404 0).status ++ " — " ++ strTake (resps404 0).body 120, 0 + 1)
      ∧ (strTake (resps404 0).body 120).length ≤ 120) :=
  ⟨by decide, c3_single_cue_any_status_success cuePlain filesNone resps404 0 (by decide)⟩

/-- C4 counterexample: the batch executor does not apply the single-cue
semantics to a cue with a non-empty sequence reference.  The single cue
of `docSeqRef` carries `sequence="warmup"`, yet `execute_sequence`
(which takes no sequence resolver at all) issues exactly one device call
carrying the cue's own 8-pair switch vector and no per-step call,
refuting "including sequence resolution for cues with a non-empty
sequenceRef". -/
theorem c4_batch_ignores_sequence_ref :
    execute_sequence docSeqRef respsOK 0 =
      { events := [.call (vec8 0)], next := 1, err := none } := rfl

/-- Collecting cues errors as soon as one of them has a missing or
non-integer `order` attribute. -/
theorem collectCues_error_of_bad (l : List XmlElem) (c : XmlElem)
    (hc : c ∈ l)
    (hbad : attrGet "order" c.attrs = none ∨
      ∃ raw, attrGet "order" c.attrs = some raw ∧ parsePyInt raw = none) :
    ∃ e, collectCues l = .error e := by
  induction l with
  | nil => cases hc
  | cons d rest ih =>
    rcases List.mem_cons.mp hc with rfl | hmem
    · rcases hbad with hnone | ⟨raw, hraw, hparse⟩
      · exact ⟨"Cue missing required order attribute", by simp [collectCues, hnone]⟩
      · exact ⟨"Invalid Cue order=" ++ raw ++ " (must be integer)",
          by simp [collectCues, hraw, hparse]⟩
    · cases hd : attrGet "order" d.attrs with
      | none =>
        exact ⟨"Cue missing required order attribute", by simp [collectCues, hd]⟩
      | some raw =>
        cases hp : parsePyInt raw with
        | none =>
          exact ⟨"Invalid Cue order=" ++ raw ++ " (must be integer)",
            by simp [collectCues, hd, hp]⟩
        | some o =>
          obtain ⟨e, he⟩ := ih hmem
          exact ⟨e, by simp [collectCues, hd, hp, he, Except.map]⟩

/-- Once a prefix of the cue list has failed, appending further cues
changes nothing: no event of theirs is ever produced. -/
theorem runCues_append_of_err (l1 : List (Int × XmlElem)) :
    ∀ (l2 : List (Int × XmlElem)) (resps : Nat → Resp) (k : Nat),
      (runCues l1 resps k).err.isSome = true →
      runCues (l1 ++ l2) resps k = runCues l1 resps k := by
  induction l1 with
  | nil => intro l2 resps k h; simp [runCues] at h
  | cons p l1 ih =>
    intro l2 resps k h
    obtain ⟨o, c⟩ := p
    simp only [runCues, List.cons_append, List.append_eq] at h ⊢
    cases hr : (runCue c resps k).err with
    | some e => simp only [hr]
    | none =>
      simp only [hr] at h ⊢
      rw [ih l2 resps (runCue c resps k).next h]

/-- Every member of an ordered insertion is the inserted element or a
member of the original list. -/
theorem mem_orderedInsertCue {x a : Int × XmlElem} :
    ∀ {l : List (Int × XmlElem)}, x ∈ orderedInsertCue a l → x = a ∨ x ∈ l := by
  intro l
  induction l with
  | nil =>
    intro h
    simp [orderedInsertCue] at h
    exact Or.inl h
  | cons b bs ih =>
    intro h
    unfold orderedInsertCue at h
    by_cases hab : a.1 ≤ b.1
    · rw [if_pos hab] at h
      rcases List.mem_cons.mp h with rfl | h2
      · exact Or.inl rfl
      · exact Or.inr h2
    · rw [if_neg hab] at h
      rcases List.mem_cons.mp h with rfl | h2
      · exact Or.inr (List.mem_cons_self _ _)
      · rcases ih h2 with rfl | h3
        · exact Or.inl rfl
        · exact Or.inr (List.mem_cons_of_mem _ h3)

/-- Ordered insertion preserves ascending key order. -/
theorem orderedInsertCue_pairwise (a : Int × XmlElem) :
    ∀ {l : List (Int × XmlElem)}, l.Pairwise orderKeyLe →
      (orderedInsertCue a l).Pairwise orderKeyLe := by
  intro l
  induction l with
  | nil =>
    intro _
    simp [orderedInsertCue]
  | cons b bs ih =>
    intro h
    rcases List.pairwise_cons.mp h with ⟨hb, hbs⟩
    unfold orderedInsertCue
    by_cases hab : a.1 ≤ b.1
    · rw [if_pos hab]
      refine List.pairwise_cons.mpr ⟨?_, h⟩
      intro x hx
      rcases List.mem_cons.mp hx with rfl | hx2
      · exact hab
      · exact le_trans hab (hb x hx2)
    · rw [if_neg hab]
      refine List.pairwise_cons.mpr ⟨?_, ih hbs⟩
      intro x hx
      rcases mem_orderedInsertCue hx with rfl | hx2
      · exact le_of_not_le hab
      · exact hb x hx2

/-- Ordered insertion is a permutation of prepending. -/
theorem orderedInsertCue_perm (a : Int × XmlElem) :
    ∀ l : List (Int × XmlElem), List.Perm (orderedInsertCue a l) (a :: l) := by
  intro l
  induction l with
  | nil => exact List.Perm.refl _
  | cons b bs ih =>
    unfold orderedInsertCue
    by_cases hab : a.1 ≤ b.1
    · rw [if_pos hab]
    · rw [if_neg hab]
      exact (ih.cons b).trans (List.Perm.swap a b bs)

/-- The batch sort leaves the keys in ascending order. -/
theorem sortCuesByOrder_pairwise (l : List (Int × XmlElem)) :
    (sortCuesByOrder l).Pairwise orderKeyLe := by
  induction l with
  | nil => simp [sortCuesByOrder]
  | cons a t ih => exact orderedInsertCue_pairwise a ih

/-- The batch sort is a permutation of its input. -/
theorem sortCuesByOrder_perm (l : List (Int × XmlElem)) :
    List.Perm (sortCuesByOrder l) l := by
  induction l with
  | nil => exact List.Perm.refl _
  | cons a t ih => exact (orderedInsertCue_perm a _).trans (ih.cons a)

/-- C4 amended: `runAll` (1) rejects any cue with a missing or
non-integer `order` attribute with an error before any device call is
issued, instead of defaulting it; (2) stops at the first failure, so no
cue after the failing one ever contributes a device call; (3) sorts the
collected cues ascending by `order` (an ascending-key permutation of the
input) before executing any of them; and (4) concretely: orders
`[3, 1, 2]` produce device calls in cue order 1, 2, 3, each call carrying
that cue's own SwitchN pairs (the sequence attribute is ignored — there
is no sequence resolution in the batch path), a missing-order and a
non-integer-order cue are rejected with nothing executed, and a 500 on
the second cue stops the run before the third call. -/
theorem c4_batch_order_and_abort :
    (∀ (root : XmlElem) (resps : Nat → Resp) (k : Nat) (c : XmlElem),
        c ∈ root.children → c.tag = "Cue" →
        (attrGet "order" c.attrs = none ∨
          ∃ raw, attrGet "order" c.attrs = some raw ∧ parsePyInt raw = none) →
        ∃ e, execute_sequence root resps k =
          { events := [], next := k, err := some e }) ∧
    (∀ (l1 l2 : List (Int × XmlElem)) (resps : Nat → Resp) (k : Nat),
        (runCues l1 resps k).err.isSome = true →
        runCues (l1 ++ l2) resps k = runCues l1 resps k) ∧
    (∀ l : List (Int × XmlElem),
        (sortCuesByOrder l).Pairwise orderKeyLe ∧
          List.Perm (sortCuesByOrder l) l) ∧
    ((execute_sequence doc312 respsOK 0 =
        { events := [.call (vec8 1), .call (vec8 2), .call (vec8 0)],
          next := 3, err := none }) ∧
      (execute_sequence docMissingOrder respsOK 0 =
        { events := [], next := 0,
          err := some "Cue missing required order attribute" }) ∧
      (execute_sequence docNonIntOrder respsOK 0 =
        { events := [], next := 0,
          err := some "Invalid Cue order=x (must be integer)" }) ∧
      (execute_sequence doc312 respsFail2 0 =
        { events := [.call (vec8 1), .call (vec8 2)], next := 2,
          err := some "HTTP error 500 for url" })) := by
  refine ⟨?_, runCues_append_of_err,
    fun l => ⟨sortCuesByOrder_pairwise l, sortCuesByOrder_perm l⟩,
    rfl, rfl, rfl, rfl⟩
  intro root resps k c hc htag hbad
  have hcf : c ∈ findall "Cue" root :=
    List.mem_filter.mpr ⟨hc, by simp [htag]⟩
  obtain ⟨e, he⟩ := collectCues_error_of_bad (findall "Cue" root) c hcf hbad
  exact ⟨e, by simp [execute_sequence, he]⟩

/-- Witness for the amended C4: the universal parts applied to a
missing-order document, a non-integer-order document, a concrete failing
prefix, and the unsorted order-[3,1,2] cue list. -/
theorem c4_batch_order_and_abort_witness :
    (∃ e, execute_sequence docMissingOrder respsOK 0 =
      { events := [], next := 0, err := some e }) ∧
    (∃ e, execute_sequence docNonIntOrder respsOK 0 =
      { events := [], next := 0, err := some e }) ∧
    runCues (c4l1 ++ c4l2) respsFail2 0 = runCues c4l1 respsFail2 0 ∧
    ((sortCuesByOrder c4lUnsorted).Pairwise orderKeyLe ∧
      List.Perm (sortCuesByOrder c4lUnsorted) c4lUnsorted) :=
  ⟨c4_batch_order_and_abort.1 docMissingOrder respsOK 0 cueNoOrderEl
      (by simp [docMissingOrder, XmlElem.children]) rfl (Or.inl rfl),
   c4_batch_order_and_abort.1 docNonIntOrder respsOK 0 cueBadOrderEl
      (by simp [docNonIntOrder, XmlElem.children]) rfl (Or.inr ⟨"x", rfl, rfl⟩),
   c4_batch_order_and_abort.2.1 c4l1 c4l2 respsFail2 0 (by decide),
   c4_batch_order_and_abort.2.2.1 c4lUnsorted⟩

/-- C5: a result tagged with a generation other than the current counter
is silently discarded (the state is unchanged), while the result whose
tag equals the current counter is applied to the status display; applying
a stale generation `g1` after the current generation `g2` has been
applied leaves the display showing exactly `g2`'s result — the display
reflects the last-scheduled send, never a later-completing older one. -/
theorem c5_stale_result_discarded (st : AppState) (g1 g2 : Nat) (ok1 ok2 : Bool)
    (m1 m2 n1 n2 : String) (hclose : st.closing = false)
    (hg2 : g2 = st.sendSeq) (hne : g1 ≠ g2) :
    finish_send st g1 ok1 m1 n1 = st ∧
    (finish_send st g2 ok2 m2 n2).status = statusLine ok2 m2 n2 ∧
    finish_send (finish_send st g2 ok2 m2 n2) g1 ok1 m1 n1 =
      finish_send st g2 ok2 m2 n2 := by
  subst hg2
  refine ⟨?_, ?_, ?_⟩
  · simp [finish_send, hclose, hne]
  · simp [finish_send, hclose]
  · simp [finish_send, hclose, hne]

/-- Witness for C5 at a concrete state with current generation 2. -/
theorem c5_stale_result_discarded_witness :
    stW.closing = false ∧ (2 : Nat) = stW.sendSeq ∧ (1 : Nat) ≠ 2 ∧
    (finish_send stW 1 true "old" "A" = stW ∧
     (finish_send stW 2 false "new" "B").status = statusLine false "new" "B" ∧
     finish_send (finish_send stW 2 false "new" "B") 1 true "old" "A" =
       finish_send stW 2 false "new" "B") :=
  ⟨by decide, by decide, by decide,
    c5_stale_result_discarded stW 1 2 true false "old" "new" "A" "B"
      (by decide) (by decide) (by decide)⟩

/-- C6: three selection events inside the debounce window each cancel the
previously pending debounce and schedule their own (the single
`pendingIid` slot holds at most one outstanding debounce); when the timer
finally fires, only the last selection `c` is handed to a worker — the
dispatch history grows by exactly `[c]` and exactly one generation is
consumed, so selections `a` and `b` trigger no network call. -/
theorem c6_debounce_coalescing (st : AppState) (a b c : String)
    (hclose : st.closing = false) :
    (debounced_send_for_iid (debounced_send_for_iid
        (debounced_send_for_iid st a) b) c).pendingIid = some c ∧
    (fireDebounce (debounced_send_for_iid (debounced_send_for_iid
        (debounced_send_for_iid st a) b) c)).dispatched = st.dispatched ++ [c] ∧
    (fireDebounce (debounced_send_for_iid (debounced_send_for_iid
        (debounced_send_for_iid st a) b) c)).sendSeq = st.sendSeq + 1 := by
  refine ⟨?_, ?_, ?_⟩ <;>
    simp [debounced_send_for_iid, fireDebounce, begin_send_selected, hclose]

/-- Witness for C6 at a fresh concrete state. -/
theorem c6_debounce_coalescing_witness :
    stW0.closing = false ∧
    ((debounced_send_for_iid (debounced_send_for_iid
        (debounced_send_for_iid stW0 "A") "B") "C").pendingIid = some "C" ∧
     (fireDebounce (debounced_send_for_iid (debounced_send_for_iid
        (debounced_send_for_iid stW0 "A") "B") "C")).dispatched =
        stW0.dispatched ++ ["C"] ∧
     (fireDebounce (debounced_send_for_iid (debounced_send_for_iid
        (debounced_send_for_iid stW0 "A") "B") "C")).sendSeq = stW0.sendSeq + 1) :=
  ⟨by decide, c6_debounce_coalescing stW0 "A" "B" "C" (by decide)⟩

/-- A run of completion events all tagged with stale generations leaves
the coordinator state untouched. -/
theorem applyFinishes_stale (st : AppState) (evts : List FinishEvt)
    (h : ∀ e ∈ evts, e.seq ≠ st.sendSeq) : applyFinishes st evts = st := by
  induction evts with
  | nil => rfl
  | cons e rest ih =>
    have he : e.seq ≠ st.sendSeq := h e (by simp)
    have hfin : finish_send st e.seq e.ok e.msg e.name = st := by
      by_cases hc : st.closing = true <;> simp [finish_send, hc, he]
    show applyFinishes (finish_send st e.seq e.ok e.msg e.name) rest = st
    rw [hfin]
    exact ih fun e' he' => h e' (by simp [he'])

/-- C10: beginning a dispatch sets the busy flag, and any number of
completion events carrying stale generations (including one more after
them) leave the state — and in particular the busy flag — unchanged:
only a result whose generation equals the current counter can clear
busy, so busy stays set while the most recent dispatch is outstanding,
regardless of how many older sends complete. -/
theorem c10_busy_cleared_only_by_current_generation (st : AppState)
    (iid : String) (evts : List FinishEvt) (g : Nat) (ok : Bool)
    (msg name : String) (hclose : st.closing = false)
    (hstale : ∀ e ∈ evts, e.seq ≠ (begin_send_selected st iid).1.sendSeq)
    (hg : g ≠ (begin_send_selected st iid).1.sendSeq) :
    (begin_send_selected st iid).1.busy = true ∧
    applyFinishes (begin_send_selected st iid).1 evts =
      (begin_send_selected st iid).1 ∧
    (finish_send (applyFinishes (begin_send_selected st iid).1 evts)
      g ok msg name).busy = true := by
  have hbusy : (begin_send_selected st iid).1.busy = true := by
    simp [begin_send_selected, hclose]
  have happ : applyFinishes (begin_send_selected st iid).1 evts =
      (begin_send_selected st iid).1 :=
    applyFinishes_stale _ evts hstale
  refine ⟨hbusy, happ, ?_⟩
  rw [happ]
  have : finish_send (begin_send_selected st iid).1 g ok msg name =
      (begin_send_selected st iid).1 := by
    by_cases hc : (begin_send_selected st iid).1.closing = true <;>
      simp [finish_send, hc, hg]
  rw [this, hbusy]

/-- Witness for C10: dispatch from a fresh state (current generation
becomes 1), then stale completions tagged 5 and 9. -/
theorem c10_busy_cleared_only_by_current_generation_witness :
    stW0.closing = false ∧
    (∀ e ∈ [FinishEvt.mk 5 true "m" "n"],
      e.seq ≠ (begin_send_selected stW0 "A").1.sendSeq) ∧
    (9 : Nat) ≠ (begin_send_selected stW0 "A").1.sendSeq ∧
    ((begin_send_selected stW0 "A").1.busy = true ∧
     applyFinishes (begin_send_selected stW0 "A").1 [FinishEvt.mk 5 true "m" "n"] =
       (begin_send_selected stW0 "A").1 ∧
     (finish_send (applyFinishes (begin_send_selected stW0 "A").1
        [FinishEvt.mk 5 true "m" "n"]) 9 false "x" "y").busy = true) :=
  ⟨by decide, by decide, by decide,
    c10_busy_cleared_only_by_current_generation stW0 "A"
      [FinishEvt.mk 5 true "m" "n"] 9 false "x" "y"
      (by decide) (by decide) (by decide)⟩
